import Mathlib

/-!
Shallow embedding of the Cafe Directory Service (`main.py`): a single-table
store of cafe rows and one Lean function per HTTP handler.  The store is a
list of rows in insertion order (SQLite native order); each handler takes the
store and returns its response together with the store left behind, so frame
effects are explicit.  Errors raised as `HTTPException` become
`Except.error (HandlerError.httpError status detail)`; the SQLAlchemy
`IntegrityError` that the add handler does not catch becomes
`HandlerError.uncaughtIntegrityError`.
-/

/-- A persisted row of the `cafes` table (SQLAlchemy model `Cafe`).
Every column is `NOT NULL` except `coffee_price`, which is nullable. -/
structure CafeRow where
  id : Nat
  name : String
  map_url : String
  img_url : String
  location : String
  seats : String
  has_toilet : Bool
  has_wifi : Bool
  has_sockets : Bool
  can_take_calls : Bool
  coffee_price : Option String
  deriving Repr, DecidableEq

/-- The store: the rows of the `cafes` table in native (insertion) order. -/
abbrev Store := List CafeRow

/-- How a handler fails: a raised `HTTPException` with a status code and a
detail message, or the store-level `IntegrityError` that `add_cafe` lets
escape uncaught. -/
inductive HandlerError where
  | httpError (status : Nat) (detail : String)
  | uncaughtIntegrityError
  deriving Repr, DecidableEq

/-- The hardcoded secret the delete handler compares `api_key` against. -/
def apiKeySecret : String := "TopSecretAPIKey"

/-- The request body of `POST /add` after pydantic validation (`CafeCreate`):
all ten fields, `coffee_price` included, carry a value. -/
structure CafeCreate where
  name : String
  map_url : String
  img_url : String
  location : String
  seats : String
  has_toilet : Bool
  has_wifi : Bool
  has_sockets : Bool
  can_take_calls : Bool
  coffee_price : String
  deriving Repr, DecidableEq

/-- A raw JSON body for `POST /add` before validation: each field either
present (`some`) or absent (`none`). -/
structure CafePayload where
  name : Option String
  map_url : Option String
  img_url : Option String
  location : Option String
  seats : Option String
  has_toilet : Option Bool
  has_wifi : Option Bool
  has_sockets : Option Bool
  can_take_calls : Option Bool
  coffee_price : Option String
  deriving Repr, DecidableEq

/-- Pydantic validation of the `CafeCreate` model: every field of `CafeBase`
is annotated without a default in `main.py`, so every field is required;
a payload missing any of them is rejected (HTTP 422). -/
def validateCafeCreate (p : CafePayload) : Option CafeCreate := do
  let name ← p.name
  let map_url ← p.map_url
  let img_url ← p.img_url
  let location ← p.location
  let seats ← p.seats
  let has_toilet ← p.has_toilet
  let has_wifi ← p.has_wifi
  let has_sockets ← p.has_sockets
  let can_take_calls ← p.can_take_calls
  let coffee_price ← p.coffee_price
  pure { name := name, map_url := map_url, img_url := img_url,
         location := location, seats := seats, has_toilet := has_toilet,
         has_wifi := has_wifi, has_sockets := has_sockets,
         can_take_calls := can_take_calls, coffee_price := coffee_price }

/-- `GET /` (`read_cafes`): `select(Cafe).offset(skip).limit(limit)`. -/
def read_cafes (skip limit : Nat) (db : Store) : List CafeRow × Store :=
  ((db.drop skip).take limit, db)

/-- `GET /random` (`random_cafe`): selects all rows, raises 404 when the
table is empty, otherwise `random.choice`; the choice made by the random
number generator is modelled by the index parameter `k`, reduced modulo the
number of rows. -/
def random_cafe (k : Nat) (db : Store) : Except HandlerError CafeRow × Store :=
  if h : db = [] then
    (Except.error (HandlerError.httpError 404 "No cafes available"), db)
  else
    (Except.ok (db.get ⟨k % db.length, Nat.mod_lt k (List.length_pos.mpr h)⟩), db)

/-- `GET /all` (`all_cafe`): selects every row. -/
def all_cafe (db : Store) : List CafeRow × Store :=
  (db, db)

/-- The two characters Python's `loc.strip` removes: single and double
quote (code points 39 and 34). -/
def quoteChars : List Char := [Char.ofNat 39, Char.ofNat 34]

/-- Python `str.strip` with the quote characters: removes every leading and
every trailing character belonging to `quoteChars`. -/
def stripQuotes (s : String) : String :=
  String.mk
    (((s.toList.dropWhile (fun c => quoteChars.contains c)).reverse.dropWhile
        (fun c => quoteChars.contains c)).reverse)

/-- The `WHERE` predicate of `GET /search`: the row's `location` equals the
quote-stripped query string. -/
def locMatches (loc : String) (c : CafeRow) : Bool :=
  c.location == stripQuotes loc

/-- `GET /search` (`find_cafe`): filters on `locMatches`, raises 404 when no
row matches. -/
def find_cafe (loc : String) (db : Store) :
    Except HandlerError (List CafeRow) × Store :=
  let cafes := db.filter (locMatches loc)
  if cafes.isEmpty then
    (Except.error (HandlerError.httpError 404 "Sorry, we don't have a cafe at the location"), db)
  else
    (Except.ok cafes, db)

/-- The largest `id` present in the store (0 when empty). -/
def maxId (db : Store) : Nat :=
  db.foldr (fun r m => max r.id m) 0

/-- The `id` SQLite assigns to a freshly inserted row of an
integer-primary-key table: one more than the largest existing rowid. -/
def nextId (db : Store) : Nat :=
  maxId db + 1

/-- The row `add_cafe` builds from a validated payload, with the
store-assigned `id`; the required `coffee_price` input is stored in the
nullable column. -/
def rowOfCreate (c : CafeCreate) (newId : Nat) : CafeRow :=
  { id := newId, name := c.name, map_url := c.map_url, img_url := c.img_url,
    location := c.location, seats := c.seats, has_toilet := c.has_toilet,
    has_wifi := c.has_wifi, has_sockets := c.has_sockets,
    can_take_calls := c.can_take_calls, coffee_price := some c.coffee_price }

/-- `POST /add` (`add_cafe`): inserts the new row and commits.  `name` has a
UNIQUE constraint, so when a row with the same name already exists the commit
raises `IntegrityError`, the insert is rolled back and — the handler having
no try/except — the exception escapes the handler uncaught. -/
def add_cafe (cafe : CafeCreate) (db : Store) :
    Except HandlerError CafeRow × Store :=
  if db.any (fun r => r.name == cafe.name) then
    (Except.error HandlerError.uncaughtIntegrityError, db)
  else
    let newRow := rowOfCreate cafe (nextId db)
    (Except.ok newRow, db ++ [newRow])

/-- `cafe.coffee_price = new_price`: the single field mutation of
`update_price`. -/
def setPrice (new_price : String) (r : CafeRow) : CafeRow :=
  { r with coffee_price := some new_price }

/-- The store after `update_price` commits: the first row whose `id` matches
(the one `.first()` returned and the handler mutated) has its `coffee_price`
overwritten; every other row is untouched. -/
def updateFirstPrice (cafe_id : Nat) (new_price : String) : Store → Store
  | [] => []
  | r :: rs =>
    if r.id == cafe_id then setPrice new_price r :: rs
    else r :: updateFirstPrice cafe_id new_price rs

/-- `PATCH /update-price/{cafe_id}` (`update_price`): looks up the first row
with the given id, raises 404 when there is none, otherwise overwrites its
`coffee_price`, commits and returns the refreshed row. -/
def update_price (cafe_id : Nat) (new_price : String) (db : Store) :
    Except HandlerError CafeRow × Store :=
  match db.find? (fun r => r.id == cafe_id) with
  | none => (Except.error (HandlerError.httpError 404 "Cafe not found"), db)
  | some r =>
      (Except.ok (setPrice new_price r), updateFirstPrice cafe_id new_price db)

/-- `DELETE /report-closed/{cafe_id}` (`delete_cafe`): first compares
`api_key` with the hardcoded secret (403 on mismatch), then looks up the row
(404 when absent), then deletes it and returns the success message. -/
def delete_cafe (cafe_id : Nat) (api_key : String) (db : Store) :
    Except HandlerError String × Store :=
  if api_key ≠ apiKeySecret then
    (Except.error (HandlerError.httpError 403 "Forbidden: Invalid API Key"), db)
  else
    match db.find? (fun r => r.id == cafe_id) with
    | none => (Except.error (HandlerError.httpError 404 "Cafe not found"), db)
    | some _ =>
        (Except.ok ("Successfully deleted the cafe from the database."),
         db.eraseP (fun r => r.id == cafe_id))

/-! Concrete sample rows and payloads used by witnesses and
counterexamples. -/

/-- A sample stored row. -/
def rowA : CafeRow :=
  { id := 1, name := "Cafe A", map_url := "mapA", img_url := "imgA",
    location := "Paris", seats := "10", has_toilet := true, has_wifi := true,
    has_sockets := false, can_take_calls := false,
    coffee_price := some "2.50" }

/-- A second sample stored row, distinct id, name and location. -/
def rowB : CafeRow :=
  { id := 2, name := "Cafe B", map_url := "mapB", img_url := "imgB",
    location := "Delhi", seats := "20", has_toilet := false, has_wifi := true,
    has_sockets := true, can_take_calls := true,
    coffee_price := some "3.00" }

/-- A create request whose `name` collides with `rowA`. -/
def cafeDupCreate : CafeCreate :=
  { name := "Cafe A", map_url := "m", img_url := "i", location := "Paris",
    seats := "12", has_toilet := true, has_wifi := true, has_sockets := true,
    can_take_calls := true, coffee_price := "3.00" }

/-- A create request whose stored `location` begins and ends with a double
quote character, so quote-stripping a search for that exact string can never
match it. -/
def quotedCreate : CafeCreate :=
  { name := "Quoted Cafe", map_url := "m", img_url := "i",
    location := "\"Hidden\"", seats := "5", has_toilet := false,
    has_wifi := false, has_sockets := false, can_take_calls := false,
    coffee_price := "1.00" }

/-- A create request colliding with nothing in an empty store. -/
def cafeFresh : CafeCreate :=
  { name := "Cafe C", map_url := "mapC", img_url := "imgC",
    location := "Lima", seats := "30", has_toilet := true, has_wifi := false,
    has_sockets := true, can_take_calls := false, coffee_price := "4.00" }

/-- A `POST /add` body with every field present except `coffee_price`. -/
def payloadNoPrice : CafePayload :=
  { name := some "Cafe D", map_url := some "m", img_url := some "i",
    location := some "Oslo", seats := some "8", has_toilet := some true,
    has_wifi := some true, has_sockets := some true,
    can_take_calls := some true, coffee_price := none }

/-- A complete `POST /add` body: all ten fields present. -/
def payloadFull : CafePayload :=
  { name := some "Cafe E", map_url := some "m", img_url := some "i",
    location := some "Rome", seats := some "15", has_toilet := some true,
    has_wifi := some false, has_sockets := some true,
    can_take_calls := some false, coffee_price := some "5.00" }

/-! Helper lemmas. -/

/-- Every id in the store is bounded by `maxId`. -/
theorem id_le_maxId {r : CafeRow} {db : Store} (h : r ∈ db) : r.id ≤ maxId db := by
  induction db with
  | nil => cases h
  | cons x xs ih =>
    rcases List.mem_cons.mp h with h1 | h2
    · subst h1; exact Nat.le_max_left _ _
    · exact Nat.le_trans (ih h2) (Nat.le_max_right _ _)

/-- `find?` returns the head of the matching suffix when everything before
it fails the predicate. -/
theorem find?_first {p : CafeRow → Bool} (pre post : Store) (r : CafeRow)
    (hpre : ∀ x, x ∈ pre → p x = false) (hr : p r = true) :
    (pre ++ r :: post).find? p = some r := by
  induction pre with
  | nil => simp [List.find?, hr]
  | cons x xs ih =>
    have hx : p x = false := hpre x (List.mem_cons_self x xs)
    have ih2 := ih (fun y hy => hpre y (List.mem_cons_of_mem x hy))
    simp [List.find?, hx, ih2]

/-- `updateFirstPrice` rewrites exactly the first matching row. -/
theorem updateFirstPrice_first (cafe_id : Nat) (new_price : String)
    (pre post : Store) (r : CafeRow)
    (hpre : ∀ x, x ∈ pre → x.id ≠ cafe_id) (hr : r.id = cafe_id) :
    updateFirstPrice cafe_id new_price (pre ++ r :: post) =
      pre ++ setPrice new_price r :: post := by
  induction pre with
  | nil => simp [updateFirstPrice, hr]
  | cons x xs ih =>
    have hx : (x.id == cafe_id) = false :=
      beq_eq_false_iff_ne.mpr (hpre x (List.mem_cons_self x xs))
    have ih2 := ih (fun y hy => hpre y (List.mem_cons_of_mem x hy))
    simp [updateFirstPrice, hx, ih2]

/-- `eraseP` removes exactly the first matching row. -/
theorem eraseP_first {p : CafeRow → Bool} (pre post : Store) (r : CafeRow)
    (hpre : ∀ x, x ∈ pre → p x = false) (hr : p r = true) :
    (pre ++ r :: post).eraseP p = pre ++ post := by
  induction pre with
  | nil => simp [List.eraseP_cons, hr]
  | cons x xs ih =>
    have hx : p x = false := hpre x (List.mem_cons_self x xs)
    have ih2 := ih (fun y hy => hpre y (List.mem_cons_of_mem x hy))
    simp [List.eraseP_cons, hx, ih2]

/-! Claim theorems. -/

/-- Claim C1 (code_bug evidence): with `rowA` (name "Cafe A") in the store,
adding `cafeDupCreate` (same name) leaves the store unchanged but fails with
the uncaught store-level `IntegrityError`, which nothing in the handler maps
to an `HTTPException` — the caller sees the framework's 500 response, not a
409 client error as the spec requires. -/
theorem add_cafe_duplicate_uncaught :
    add_cafe cafeDupCreate [rowA] =
      (Except.error HandlerError.uncaughtIntegrityError, [rowA])
    ∧ ∀ s d, (add_cafe cafeDupCreate [rowA]).1 ≠
        Except.error (HandlerError.httpError s d) := by
  refine ⟨rfl, ?_⟩
  intro s d h
  have h2 : Except.error (ε := HandlerError) (α := CafeRow)
      HandlerError.uncaughtIntegrityError =
      Except.error (HandlerError.httpError s d) := h
  injection h2 with h3
  injection h3

/-- Claim C3: `find_cafe loc` fails with 404 exactly when no row's
`location` equals the quote-stripped input, and a successful result holds
exactly the rows whose `location` equals the quote-stripped input. -/
theorem find_cafe_spec (loc : String) (db : Store) :
    ((find_cafe loc db).1 =
        Except.error (HandlerError.httpError 404 "Sorry, we don't have a cafe at the location")
      ↔ ∀ r, r ∈ db → r.location ≠ stripQuotes loc)
    ∧ ∀ l, (find_cafe loc db).1 = Except.ok l →
        ∀ r, (r ∈ l ↔ r ∈ db ∧ r.location = stripQuotes loc) := by
  unfold find_cafe
  constructor
  · by_cases hemp : (db.filter (locMatches loc)).isEmpty
    · simp only [hemp, if_true]
      constructor
      · intro _ r hr hloc
        have hmem : r ∈ db.filter (locMatches loc) := by
          refine List.mem_filter.mpr ⟨hr, ?_⟩
          simp [locMatches, hloc]
        rw [List.isEmpty_iff] at hemp
        rw [hemp] at hmem
        cases hmem
      · intro _; trivial
    · simp only [hemp, if_false]
      constructor
      · intro h; cases h
      · intro hall
        exfalso
        apply hemp
        rw [List.isEmpty_iff, List.filter_eq_nil_iff]
        intro r hr
        simp [locMatches, hall r hr]
  · intro l hl r
    by_cases hemp : (db.filter (locMatches loc)).isEmpty
    · simp only [hemp, if_true] at hl; cases hl
    · simp only [hemp, if_false] at hl
      have hfl : db.filter (locMatches loc) = l := by injection hl
      subst hfl
      rw [List.mem_filter]
      simp [locMatches]

/-- Claim C3 witness: searching "Paris" in the two-row store returns exactly
`rowA`. -/
theorem find_cafe_spec_witness :
    rowA ∈ [rowA] ↔ (rowA ∈ [rowA, rowB] ∧ rowA.location = stripQuotes ("Paris")) :=
  (find_cafe_spec ("Paris") [rowA, rowB]).2 [rowA] rfl rowA

/-- Claim C5: `random_cafe` leaves the store unchanged; it fails with the
404 NotFound error exactly when the store is empty; any failure it ever
reports is that 404 NotFound error (never 403, never a crash); and any
returned row belongs to the store — whatever choice `k` the random number
generator makes. -/
theorem random_cafe_spec (k : Nat) (db : Store) :
    (random_cafe k db).2 = db
    ∧ ((random_cafe k db).1 =
        Except.error (HandlerError.httpError 404 "No cafes available") ↔ db = [])
    ∧ (∀ e, (random_cafe k db).1 = Except.error e →
        e = HandlerError.httpError 404 "No cafes available")
    ∧ ∀ r, (random_cafe k db).1 = Except.ok r → r ∈ db := by
  by_cases h : db = []
  · subst h
    refine ⟨rfl, ⟨fun _ => rfl, fun _ => rfl⟩, ?_, ?_⟩
    · intro e he
      have h2 : Except.error (α := CafeRow)
          (HandlerError.httpError 404 "No cafes available") = Except.error e := he
      exact (Except.error.inj h2).symm
    · intro r hr
      exact Except.noConfusion hr
  · refine ⟨?_, ?_, ?_, ?_⟩
    · unfold random_cafe
      rw [dif_neg h]
    · constructor
      · intro he
        unfold random_cafe at he
        rw [dif_neg h] at he
        exact Except.noConfusion he
      · intro hdb; exact absurd hdb h
    · intro e he
      unfold random_cafe at he
      rw [dif_neg h] at he
      exact Except.noConfusion he
    · intro r hr
      unfold random_cafe at hr
      rw [dif_neg h] at hr
      have hg := Except.ok.inj hr
      rw [← hg]
      exact db.get_mem _ _

/-- Claim C5 witness: with one row and generator choice 0, the returned row
is in the store. -/
theorem random_cafe_spec_witness : rowA ∈ [rowA] :=
  (random_cafe_spec 0 [rowA]).2.2.2 rowA rfl

/-- Claim C6: for any `skip` and `limit`, List returns exactly the window
`take limit` of `drop skip` of the store (so it is total — no error for
out-of-range values), hence at most `limit` rows, and (ids being unique, as
the primary key guarantees) none of the first `skip` rows. -/
theorem read_cafes_spec (skip limit : Nat) (db : Store)
    (hids : (db.map CafeRow.id).Nodup) :
    (read_cafes skip limit db).1 = (db.drop skip).take limit
    ∧ (read_cafes skip limit db).1.length ≤ limit
    ∧ ∀ r, r ∈ (read_cafes skip limit db).1 → r ∉ db.take skip := by
  refine ⟨rfl, ?_, ?_⟩
  · exact List.length_take_le _ _
  · intro r hr htake
    have hdrop : r ∈ db.drop skip := List.mem_of_mem_take hr
    have hnd : db.Nodup := List.Nodup.of_map CafeRow.id hids
    have hnd2 : (db.take skip ++ db.drop skip).Nodup := by
      rw [List.take_append_drop]; exact hnd
    exact (List.disjoint_of_nodup_append hnd2) htake hdrop

/-- Claim C6 witness: skip 1, limit 1 over the two-row store returns the
window after the first row. -/
theorem read_cafes_spec_witness :
    (read_cafes 1 1 [rowA, rowB]).1 = ([rowA, rowB].drop 1).take 1 :=
  (read_cafes_spec 1 1 [rowA, rowB] (by decide)).1

/-- Claim C9: `delete_cafe` compares the api key before any row lookup:
a wrong key yields 403 with the store unchanged for every store — in
particular also when no row has the requested id — and never the 404
NotFound answer. -/
theorem delete_cafe_key_first (cafe_id : Nat) (api_key : String) (db : Store)
    (hkey : api_key ≠ apiKeySecret) :
    delete_cafe cafe_id api_key db =
      (Except.error (HandlerError.httpError 403 "Forbidden: Invalid API Key"), db)
    ∧ (delete_cafe cafe_id api_key db).1 ≠
        Except.error (HandlerError.httpError 404 "Cafe not found") := by
  have h : delete_cafe cafe_id api_key db =
      (Except.error (HandlerError.httpError 403 "Forbidden: Invalid API Key"), db) := by
    unfold delete_cafe
    rw [if_pos hkey]
  refine ⟨h, ?_⟩
  rw [h]
  intro hbad
  injection hbad with h3
  injection h3 with h4 h5
  cases h4

/-- Claim C9 witness: wrong key against an empty store (so id 7 does not
exist) still yields Forbidden, not NotFound. -/
theorem delete_cafe_key_first_witness :
    delete_cafe 7 "nope" [] =
      (Except.error (HandlerError.httpError 403 "Forbidden: Invalid API Key"), []) :=
  (delete_cafe_key_first 7 "nope" [] (by decide)).1

/-- Claim C10: the four read handlers return the store they were given:
List, Random, All and Search never modify the store, whether they succeed
or fail. -/
theorem reads_preserve_store (skip limit k : Nat) (loc : String) (db : Store) :
    (read_cafes skip limit db).2 = db
    ∧ (random_cafe k db).2 = db
    ∧ (all_cafe db).2 = db
    ∧ (find_cafe loc db).2 = db := by
  refine ⟨rfl, ?_, rfl, ?_⟩
  · unfold random_cafe
    by_cases h : db = []
    · rw [dif_pos h]
    · rw [dif_neg h]
  · unfold find_cafe
    by_cases h : (db.filter (locMatches loc)).isEmpty
    · rw [if_pos h]
    · rw [if_neg h]

/-- `find_cafe` with the `let` zeta-reduced, for rewriting. -/
theorem find_cafe_eval (loc : String) (db : Store) :
    find_cafe loc db =
      if (db.filter (locMatches loc)).isEmpty then
        (Except.error (HandlerError.httpError 404 "Sorry, we don't have a cafe at the location"), db)
      else
        (Except.ok (db.filter (locMatches loc)), db) := rfl

/-- Claim C2: on a store whose first row with `cafe_id` is `r` (ids are
unique, so the decomposition `pre ++ r :: post` with no match in `pre` is
the general case), `update_price` returns `r` with only `coffee_price`
overwritten and replaces exactly that row; `setPrice` provably preserves
every other field; and on a store with no matching row it fails with 404
and leaves the store unchanged. -/
theorem update_price_spec (cafe_id : Nat) (new_price : String) :
    (∀ pre post : Store, ∀ r : CafeRow,
       (∀ x, x ∈ pre → x.id ≠ cafe_id) → r.id = cafe_id →
       update_price cafe_id new_price (pre ++ r :: post) =
         (Except.ok (setPrice new_price r), pre ++ setPrice new_price r :: post))
    ∧ (∀ r : CafeRow, (setPrice new_price r).coffee_price = some new_price
        ∧ (setPrice new_price r).id = r.id
        ∧ (setPrice new_price r).name = r.name
        ∧ (setPrice new_price r).map_url = r.map_url
        ∧ (setPrice new_price r).img_url = r.img_url
        ∧ (setPrice new_price r).location = r.location
        ∧ (setPrice new_price r).seats = r.seats
        ∧ (setPrice new_price r).has_toilet = r.has_toilet
        ∧ (setPrice new_price r).has_wifi = r.has_wifi
        ∧ (setPrice new_price r).has_sockets = r.has_sockets
        ∧ (setPrice new_price r).can_take_calls = r.can_take_calls)
    ∧ (∀ db : Store, (∀ x, x ∈ db → x.id ≠ cafe_id) →
       update_price cafe_id new_price db =
         (Except.error (HandlerError.httpError 404 "Cafe not found"), db)) := by
  refine ⟨?_, ?_, ?_⟩
  · intro pre post r hpre hr
    have hfind : (pre ++ r :: post).find? (fun x => x.id == cafe_id) = some r :=
      find?_first pre post r (fun x hx => beq_eq_false_iff_ne.mpr (hpre x hx))
        (beq_iff_eq.mpr hr)
    unfold update_price
    simp only [hfind]
    rw [updateFirstPrice_first cafe_id new_price pre post r hpre hr]
  · intro r
    exact ⟨rfl, rfl, rfl, rfl, rfl, rfl, rfl, rfl, rfl, rfl, rfl⟩
  · intro db hall
    have hfind : db.find? (fun x => x.id == cafe_id) = none := by
      rw [List.find?_eq_none]
      intro x hx
      simp [hall x hx]
    unfold update_price
    simp only [hfind]

/-- Claim C2 witness: updating the price of id 2 in the store `[rowA, rowB]`
replaces only `rowB`'s `coffee_price`. -/
theorem update_price_spec_witness :
    update_price 2 "9.99" ([rowA] ++ rowB :: []) =
      (Except.ok (setPrice ("9.99") rowB), [rowA] ++ setPrice ("9.99") rowB :: []) :=
  (update_price_spec 2 "9.99").1 [rowA] [] rowB (by decide) (by decide)

/-- Claim C4: delete with a wrong key fails 403 and leaves any store
unchanged; with the right key and no matching row it fails 404 and leaves
the store unchanged; with the right key and a matching row (`pre ++ r ::
post`, ids unique) it returns the success message, removes exactly that row,
and the row no longer appears in All or in any List window afterwards. -/
theorem delete_cafe_spec (cafe_id : Nat) (api_key : String) :
    (∀ db : Store, api_key ≠ apiKeySecret →
       delete_cafe cafe_id api_key db =
         (Except.error (HandlerError.httpError 403 "Forbidden: Invalid API Key"), db))
    ∧ (∀ db : Store, api_key = apiKeySecret → (∀ x, x ∈ db → x.id ≠ cafe_id) →
       delete_cafe cafe_id api_key db =
         (Except.error (HandlerError.httpError 404 "Cafe not found"), db))
    ∧ (∀ pre post : Store, ∀ r : CafeRow, api_key = apiKeySecret →
       (∀ x, x ∈ pre → x.id ≠ cafe_id) → r.id = cafe_id →
       (∀ x, x ∈ post → x.id ≠ cafe_id) →
       (delete_cafe cafe_id api_key (pre ++ r :: post)).1 =
           Except.ok ("Successfully deleted the cafe from the database.")
       ∧ (delete_cafe cafe_id api_key (pre ++ r :: post)).2 = pre ++ post
       ∧ r ∉ (all_cafe (pre ++ post)).1
       ∧ ∀ skip limit : Nat, r ∉ (read_cafes skip limit (pre ++ post)).1) := by
  refine ⟨?_, ?_, ?_⟩
  · intro db hkey
    unfold delete_cafe
    rw [if_pos hkey]
  · intro db hkeq hall
    have hcond : ¬(api_key ≠ apiKeySecret) := fun hc => hc hkeq
    have hfind : db.find? (fun x => x.id == cafe_id) = none := by
      rw [List.find?_eq_none]
      intro x hx
      simp [hall x hx]
    unfold delete_cafe
    rw [if_neg hcond]
    simp only [hfind]
  · intro pre post r hkeq hpre hr hpost
    have hcond : ¬(api_key ≠ apiKeySecret) := fun hc => hc hkeq
    have hfind : (pre ++ r :: post).find? (fun x => x.id == cafe_id) = some r :=
      find?_first pre post r (fun x hx => beq_eq_false_iff_ne.mpr (hpre x hx))
        (beq_iff_eq.mpr hr)
    have herase : (pre ++ r :: post).eraseP (fun x => x.id == cafe_id) = pre ++ post :=
      eraseP_first pre post r (fun x hx => beq_eq_false_iff_ne.mpr (hpre x hx))
        (beq_iff_eq.mpr hr)
    have heval : delete_cafe cafe_id api_key (pre ++ r :: post) =
        (Except.ok ("Successfully deleted the cafe from the database."), pre ++ post) := by
      unfold delete_cafe
      rw [if_neg hcond]
      simp only [hfind, herase]
    have hnotmem : r ∉ pre ++ post := by
      intro hmem
      rcases List.mem_append.mp hmem with hm | hm
      · exact hpre r hm hr
      · exact hpost r hm hr
    refine ⟨by rw [heval], by rw [heval], hnotmem, ?_⟩
    intro skip limit hmem2
    exact hnotmem (List.mem_of_mem_drop (List.mem_of_mem_take hmem2))

/-- Claim C4 witness: deleting id 2 with the correct key removes exactly
`rowB` from `[rowA, rowB]`. -/
theorem delete_cafe_spec_witness :
    (delete_cafe 2 "TopSecretAPIKey" ([rowA] ++ rowB :: [])).2 = [rowA] ++ [] :=
  ((delete_cafe_spec 2 "TopSecretAPIKey").2.2 [rowA] [] rowB rfl (by decide)
    (by decide) (by decide)).2.1

/-- Claim C7 counterexample: the payload with every field present except
`coffee_price` is rejected by pydantic validation of `CafeCreate` — the
field has no default in `CafeBase`, so it is required, not optional. -/
theorem validate_missing_price_rejected :
    validateCafeCreate payloadNoPrice = none := rfl

/-- Claim C7 amended: a Create body passes `CafeCreate` validation exactly
when all ten fields — `coffee_price` included — are present. -/
theorem validate_requires_all_fields (p : CafePayload) :
    (validateCafeCreate p).isSome = true ↔
      (p.name.isSome = true ∧ p.map_url.isSome = true ∧ p.img_url.isSome = true
       ∧ p.location.isSome = true ∧ p.seats.isSome = true
       ∧ p.has_toilet.isSome = true ∧ p.has_wifi.isSome = true
       ∧ p.has_sockets.isSome = true ∧ p.can_take_calls.isSome = true
       ∧ p.coffee_price.isSome = true) := by
  obtain ⟨n, mu, iu, l, s, ht, hw, hs, ct, cp⟩ := p
  cases n with
  | none => simp [validateCafeCreate]
  | some a1 =>
  cases mu with
  | none => simp [validateCafeCreate]
  | some a2 =>
  cases iu with
  | none => simp [validateCafeCreate]
  | some a3 =>
  cases l with
  | none => simp [validateCafeCreate]
  | some a4 =>
  cases s with
  | none => simp [validateCafeCreate]
  | some a5 =>
  cases ht with
  | none => simp [validateCafeCreate]
  | some a6 =>
  cases hw with
  | none => simp [validateCafeCreate]
  | some a7 =>
  cases hs with
  | none => simp [validateCafeCreate]
  | some a8 =>
  cases ct with
  | none => simp [validateCafeCreate]
  | some a9 =>
  cases cp with
  | none => simp [validateCafeCreate]
  | some a10 => simp [validateCafeCreate]

/-- Claim C8 counterexample: creating a cafe whose `location` is the string
`"Hidden"` including the double quote characters succeeds and stores the
row, but an immediately subsequent Search on that exact location string
strips the quotes and matches nothing, so it fails with 404 instead of
returning the new row. -/
theorem add_quoted_location_unsearchable :
    (add_cafe quotedCreate []).1 = Except.ok (rowOfCreate quotedCreate 1)
    ∧ rowOfCreate quotedCreate 1 ∈ (add_cafe quotedCreate []).2
    ∧ (rowOfCreate quotedCreate 1).location = quotedCreate.location
    ∧ (find_cafe (quotedCreate.location) (add_cafe quotedCreate []).2).1 =
        Except.error (HandlerError.httpError 404 "Sorry, we don't have a cafe at the location") := by
  exact ⟨rfl, by decide, rfl, rfl⟩

/-- Claim C8 amended: when the payload's `name` collides with no row, Create
stores a row with the fresh id `maxId + 1` (greater than every existing id),
returns that stored record, and immediately afterwards: All contains the
row; List contains it for every window covering its position; Search
returns it for every query string whose quote-stripped form equals its
location (so for the location itself whenever stripping leaves that string
unchanged). -/
theorem add_cafe_spec (c : CafeCreate) (db : Store)
    (hname : ∀ r, r ∈ db → r.name ≠ c.name) :
    add_cafe c db =
      (Except.ok (rowOfCreate c (nextId db)), db ++ [rowOfCreate c (nextId db)])
    ∧ (∀ r, r ∈ db → r.id ≠ nextId db)
    ∧ rowOfCreate c (nextId db) ∈ (all_cafe (add_cafe c db).2).1
    ∧ (∀ skip limit : Nat, skip ≤ db.length → db.length < skip + limit →
        rowOfCreate c (nextId db) ∈ (read_cafes skip limit (add_cafe c db).2).1)
    ∧ (∀ loc : String, stripQuotes loc = c.location →
        ∃ l, (find_cafe loc (add_cafe c db).2).1 = Except.ok l
          ∧ rowOfCreate c (nextId db) ∈ l) := by
  have hany : db.any (fun r => r.name == c.name) = false := by
    rw [List.any_eq_false]
    intro x hx
    simp [hname x hx]
  have heval : add_cafe c db =
      (Except.ok (rowOfCreate c (nextId db)), db ++ [rowOfCreate c (nextId db)]) := by
    unfold add_cafe
    simp only [hany, Bool.false_eq_true, if_false]
  refine ⟨heval, ?_, ?_, ?_, ?_⟩
  · intro r hr hid
    have hle := id_le_maxId hr
    rw [hid] at hle
    unfold nextId at hle
    omega
  · rw [heval]
    exact List.mem_append_right _ (List.mem_singleton.mpr rfl)
  · intro skip limit hskip hlt
    rw [heval]
    show rowOfCreate c (nextId db) ∈
      ((db ++ [rowOfCreate c (nextId db)]).drop skip).take limit
    rw [List.drop_append_of_le_length hskip]
    have hlen : (db.drop skip ++ [rowOfCreate c (nextId db)]).length ≤ limit := by
      rw [List.length_append, List.length_drop]
      simp only [List.length_singleton]
      omega
    rw [List.take_of_length_le hlen]
    exact List.mem_append_right _ (List.mem_singleton.mpr rfl)
  · intro loc hloc
    rw [heval]
    have hrowmatch : locMatches loc (rowOfCreate c (nextId db)) = true := by
      simp [locMatches, rowOfCreate, hloc]
    have hmem : rowOfCreate c (nextId db) ∈
        (db ++ [rowOfCreate c (nextId db)]).filter (locMatches loc) :=
      List.mem_filter.mpr
        ⟨List.mem_append_right _ (List.mem_singleton.mpr rfl), hrowmatch⟩
    have hne : ¬(((db ++ [rowOfCreate c (nextId db)]).filter
        (locMatches loc)).isEmpty = true) := by
      intro hx
      rw [List.isEmpty_iff] at hx
      rw [hx] at hmem
      cases hmem
    refine ⟨(db ++ [rowOfCreate c (nextId db)]).filter (locMatches loc), ?_, hmem⟩
    rw [find_cafe_eval, if_neg hne]

/-- Claim C8 witness: creating `cafeFresh` in the empty store appends the
row with id 1 and returns it. -/
theorem add_cafe_spec_witness :
    add_cafe cafeFresh [] =
      (Except.ok (rowOfCreate cafeFresh (nextId [])),
       [] ++ [rowOfCreate cafeFresh (nextId [])]) :=
  (add_cafe_spec cafeFresh [] (fun r hr => absurd hr (List.not_mem_nil r))).1

/-- Claim C7 amended witness: the complete payload `payloadFull` validates,
all its fields being present. -/
theorem validate_requires_all_fields_witness :
    (validateCafeCreate payloadFull).isSome = true ↔
      (payloadFull.name.isSome = true ∧ payloadFull.map_url.isSome = true
       ∧ payloadFull.img_url.isSome = true ∧ payloadFull.location.isSome = true
       ∧ payloadFull.seats.isSome = true ∧ payloadFull.has_toilet.isSome = true
       ∧ payloadFull.has_wifi.isSome = true ∧ payloadFull.has_sockets.isSome = true
       ∧ payloadFull.can_take_calls.isSome = true
       ∧ payloadFull.coffee_price.isSome = true) :=
  validate_requires_all_fields payloadFull
